import Mathlib

/-!
# Verification of the fee-payer transaction relay (`rpc/backend/fee_payer.go`)

This file is a shallow embedding of the relay's sequencing and fee-escalation
engine:

* `calculateFeePayerFees` — the dynamic fee estimator (`fee_payer.go:155`);
* `buildTx` — the envelope builder and signer (`fee_payer.go:200`);
* `sendMsg` — build + encode + broadcast (`fee_payer.go:285`);
* `workerStep` / `workerRun` — one iteration / a run of the relay worker loop
  (`fee_payer.go:97`), with the cached account number, sequence and the
  `getAccount` refresh flag as explicit state.

External collaborators (block/base-fee/params queries, the account retriever,
the codec, the signer, the broadcaster) are modelled as per-call environment
records holding the values they return; the Go code's handling of those values
is translated verbatim.  Machine integers (`uint64` gas and sequence numbers,
the `uint32` change denominator) are modelled as `Nat`; `big.Int` and
`sdkmath.Int` values as `Int`.  Go's `big.Int.Div` is Euclidean division, so it
is modelled by `Int.ediv`.  `sdkmath.Int` is a wrapper around a `*big.Int`
pointer whose zero value holds a nil pointer; calling `Sign()` on that zero
value dereferences nil and panics, which the model represents explicitly, as
it does the `sdkmath.NewIntFromBigInt` panic when a value exceeds the 256-bit
`sdkmath.Int` range and the `big.Int.Div` division-by-zero panic.
-/

/-- A Go `error` value as the relay observes and wraps it. -/
inductive GoErr where
  /-- An error produced by an external collaborator. -/
  | external (s : String)
  /-- Result of wrapping a nil error, as in `fmt.Errorf("...: %w", nil)`. -/
  | wrapNil (note : String)
  /-- Result of `fmt.Errorf("<note>: %w", cause)`. -/
  | wrapped (note : String) (cause : GoErr)
  /-- Result of `errorsmod.ABCIError(codespace, code, rawLog)`. -/
  | abci (codespace : String) (code : Nat) (rawLog : String)
deriving DecidableEq, Repr

/-- ABCI code of `sdkerrors.ErrTxInMempoolCache` (duplicate-pending). -/
def errTxInMempoolCacheCode : Nat := 19

/-- ABCI code of `sdkerrors.ErrWrongSequence` (sequence mismatch). -/
def errWrongSequenceCode : Nat := 32

/-- The fields of `sdk.TxResponse` that the worker inspects. -/
structure BroadcastResp where
  code : Nat
  codespace : String
  rawLog : String
deriving DecidableEq, Repr

/-- `sdkmath.Int`: a wrapper around a `*big.Int`.  The zero value of the Go
struct holds a nil pointer (`nilInt`); calling `Sign()` on it panics. -/
inductive SdkInt where
  | nilInt
  | val (v : Int)
deriving DecidableEq, Repr

/-- `baseFeeDeltaBlocks` (`fee_payer.go:34`): the lookahead block count. -/
def baseFeeDeltaBlocks : Nat := 2

/-- The responses of the three queries issued by `calculateFeePayerFees`. -/
structure FeeEnv where
  /-- `TendermintBlockResultByNumber(nil)`: the latest block height, or an
  error from the RPC client. -/
  blockRes : Except GoErr Int
  /-- `queryClient.BaseFee(...)`: the query may fail, and a successful
  response may carry a nil `BaseFee` pointer (modelled by `none`).  A real
  response is an `sdkmath.Int`, so its value is below `2^256` in absolute
  value; the model does not enforce the bound on this input. -/
  baseFeeRes : Except GoErr (Option Int)
  /-- `queryClient.FeeMarket.Params(...)`: the `BaseFeeChangeDenominator`
  parameter (a `uint32` in Go). -/
  paramsRes : Except GoErr Nat

/-- Outcome of `calculateFeePayerFees`: a `(amount, err)` return pair, or a
Go runtime panic. -/
inductive CalcOutcome where
  | ret (amount : SdkInt) (err : Option GoErr)
  | panicked (reason : String)
deriving DecidableEq, Repr

/-- `sdkmath.MaxBitLen`: an `sdkmath.Int` holds at most 256 bits (range
`-(2^256 - 1) … 2^256 - 1`); `NewIntFromBigInt` panics beyond that. -/
def maxBitLen : Nat := 256

/-- The fee amount computed at `fee_payer.go:186-196` before it is wrapped
into an `sdkmath.Int`: `d = a^b`, `m = (a+1)^b`, `newBaseFee = ⌊X*m/d⌋`
(`big.Int.Div` is Euclidean division), `adjusted = BigMax(newBaseFee, 1*b)`,
and finally `adjusted * gas`. -/
def projectedAmount (baseFee0 : Int) (a gas : Nat) : Int :=
  let d : Int := (a : Int) ^ baseFeeDeltaBlocks
  let m : Int := ((a : Int) + 1) ^ baseFeeDeltaBlocks
  let newBaseFee : Int := Int.ediv (baseFee0 * m) d
  let adjusted : Int := max newBaseFee (1 * (baseFeeDeltaBlocks : Int))
  adjusted * (gas : Int)

/-- `(fp *feePayer) calculateFeePayerFees(gas uint64)` (`fee_payer.go:155`).

Translated line by line.  Note the zero-base-fee branch: the Go source reads
`sdkmath.NewInt(0)` as a bare expression statement whose result is discarded,
so the function returns the named result `amount` still holding the zero value
of `sdkmath.Int` — a nil inner pointer — together with a nil error.  The
`a = 0` guard models the division-by-zero panic of `big.Int.Div`, and the
bit-length guard models the `sdkmath.NewIntFromBigInt` panic at
`fee_payer.go:196` when the amount needs more than `maxBitLen` bits
(`BitLen() > 256` is exactly `|amount| ≥ 2^256`). -/
def calculateFeePayerFees (env : FeeEnv) (gas : Nat) : CalcOutcome :=
  match env.blockRes with
  | .error e => .ret .nilInt (some (.wrapped "failed to query latest block" e))
  | .ok _height =>
    match env.baseFeeRes with
    | .error e => .ret .nilInt (some (.wrapped "failed to query base fee" e))
    | .ok none => .ret .nilInt (some (.wrapNil "failed to query base fee"))
    | .ok (some baseFee0) =>
      if baseFee0 = 0 then
        .ret .nilInt none
      else
        match env.paramsRes with
        | .error e => .ret .nilInt (some (.wrapped "failed to query params" e))
        | .ok a =>
          if a = 0 then
            .panicked "division by zero"
          else if 2 ^ maxBitLen ≤ (projectedAmount baseFee0 a gas).natAbs then
            .panicked "NewIntFromBigInt() out of bound"
          else
            .ret (.val (projectedAmount baseFee0 a gas)) none

/-- The spec's fee formula (§4.3 / §8): `max(floor(X*(a+1)^2/a^2), 2) * g`,
in exact natural-number arithmetic. -/
def specFeeQuote (X a g : Nat) : Nat :=
  max (X * (a + 1) ^ 2 / a ^ 2) 2 * g

/-- A fee environment in which all three queries succeed, with base fee `X`
and change denominator `a`. -/
def goodFeeEnv (X : Int) (a : Nat) : FeeEnv :=
  { blockRes := .ok 1, baseFeeRes := .ok (some X), paramsRes := .ok a }

/-- `evmtypes.MsgEthereumTx` as the relay uses it: the `From` field (cleared
by `buildTx`), the gas limit returned by `GetGas()`, and an opaque `payload`
standing for the remaining transaction data (nonce, to, value, input,
signature), which the relay never touches. -/
structure MsgEthereumTx where
  From : String
  gas : Nat
  payload : Nat
deriving DecidableEq, Repr

/-- The signed envelope produced by `buildTx` (the `authsigning.Tx`). -/
structure Envelope where
  /-- `SetExtensionOptions(ExtensionOptionsEthereumTx)`. -/
  hasEthExtensionOption : Bool
  gasLimit : Nat
  /-- `SetFeeAmount`: a list of `(denom, amount)` coins. -/
  fees : List (String × Int)
  msgs : List MsgEthereumTx
  feePayer : String
  chainID : String
  accountNumber : Nat
  /-- The sequence placed both in the `SignatureV2` and in the `SignerData`. -/
  sequence : Nat
  /-- The signature returned by `clienttx.SignWithPrivKey` (abstract). -/
  signature : Nat
deriving DecidableEq, Repr

/-- Responses of the external calls made by `buildTx` besides the fee
queries.  The signature itself is abstract data returned by the signer. -/
structure BuildEnv where
  fee : FeeEnv
  /-- `codectypes.NewAnyWithValue` error, if any. -/
  anyErr : Option GoErr
  /-- `txBuilder.SetMsgs` error, if any. -/
  setMsgsErr : Option GoErr
  /-- First `txBuilder.SetSignatures` (placeholder) error, if any. -/
  placeholderSigErr : Option GoErr
  /-- `clienttx.SignWithPrivKey`: the signature, or an error. -/
  signRes : Except GoErr Nat
  /-- Second `txBuilder.SetSignatures` error, if any. -/
  setSigsErr : Option GoErr

/-- Outcome of `buildTx`.  Each constructor carries the state of the inbound
message object at return time, because `buildTx` mutates it in place
(`ethereumMsg.From = ""`, `fee_payer.go:230`). -/
inductive BuildOutcome where
  | built (tx : Envelope) (msgFinal : MsgEthereumTx)
  | failed (e : GoErr) (msgFinal : MsgEthereumTx)
  | panicked (reason : String) (msgFinal : MsgEthereumTx)
deriving DecidableEq, Repr

/-- The state of the inbound message object after a `buildTx` call. -/
def BuildOutcome.msgAfter : BuildOutcome → MsgEthereumTx
  | .built _ m => m
  | .failed _ m => m
  | .panicked _ m => m

/-- `(fp *feePayer) buildTx(...)` (`fee_payer.go:200`), translated step by
step in source order.  The `.nilInt` branch models the Go nil-pointer panic of
`feeAmt.Sign()` when `calculateFeePayerFees` returned the zero-value Int. -/
def buildTx (env : BuildEnv) (chainID payerAddress : String)
    (ethereumMsg : MsgEthereumTx) (evmDenom : String)
    (accountNumber accountSequence : Nat) : BuildOutcome :=
  match env.anyErr with
  | some e => .failed e ethereumMsg
  | none =>
    match calculateFeePayerFees env.fee ethereumMsg.gas with
    | .panicked r => .panicked r ethereumMsg
    | .ret feeAmt feeErr =>
      match feeErr with
      | some e => .failed e ethereumMsg
      | none =>
      match feeAmt with
      | .nilInt => .panicked "nil pointer dereference" ethereumMsg
      | .val v =>
        -- From here on the Go code has executed `ethereumMsg.From = ""`;
        -- each outcome therefore carries the message with `From` cleared.
        match env.setMsgsErr with
        | some e => .failed e { ethereumMsg with From := "" }
        | none =>
          match env.placeholderSigErr with
          | some e => .failed e { ethereumMsg with From := "" }
          | none =>
            match env.signRes with
            | .error e =>
                .failed (.wrapped "failed to sign transaction" e)
                  { ethereumMsg with From := "" }
            | .ok sig =>
              match env.setSigsErr with
              | some e =>
                  .failed (.wrapped "failed to set signatures" e)
                    { ethereumMsg with From := "" }
              | none =>
                .built
                  { hasEthExtensionOption := true
                    gasLimit := ethereumMsg.gas
                    fees := if 0 < v.sign then [(evmDenom, v)] else []
                    msgs := [{ ethereumMsg with From := "" }]
                    feePayer := payerAddress
                    chainID := chainID
                    accountNumber := accountNumber
                    sequence := accountSequence
                    signature := sig } { ethereumMsg with From := "" }

/-- What `clientCtx.BroadcastTx` returned: a transport error with nil
response, a non-nil response together with an error, or a response with nil
error.  The external contract never yields a nil response with a nil error. -/
inductive BroadcastResult where
  | transportErr (e : GoErr)
  | respWithErr (r : BroadcastResp) (e : GoErr)
  | resp (r : BroadcastResp)
deriving DecidableEq, Repr

/-- Responses of the external calls made by `sendMsg` beyond `buildTx`. -/
structure SendEnv where
  build : BuildEnv
  /-- `TxConfig.TxEncoder()` error, if any. -/
  encodeErr : Option GoErr
  broadcast : BroadcastResult

/-- Outcome of `sendMsg`, i.e. the `(txResp, err)` pair the worker receives,
plus the state of the message object and (when built) the envelope. -/
inductive SendOutcome where
  | panicked (reason : String) (msgFinal : MsgEthereumTx)
  /-- `err != nil`, `txResp == nil`. -/
  | errNoResp (e : GoErr) (msgFinal : MsgEthereumTx) (tx : Option Envelope)
  /-- `err != nil`, `txResp != nil`. -/
  | errWithResp (r : BroadcastResp) (e : GoErr) (msgFinal : MsgEthereumTx) (tx : Envelope)
  /-- `err == nil`. -/
  | okResp (r : BroadcastResp) (msgFinal : MsgEthereumTx) (tx : Envelope)
deriving DecidableEq, Repr

/-- `(fp *feePayer) sendMsg(...)` (`fee_payer.go:285`): build, encode,
broadcast. -/
def sendMsg (env : SendEnv) (chainID payerAddress : String)
    (ethereumMsg : MsgEthereumTx) (evmDenom : String)
    (accountNumber accountSequence : Nat) : SendOutcome :=
  match buildTx env.build chainID payerAddress ethereumMsg evmDenom
      accountNumber accountSequence with
  | .panicked r m => .panicked r m
  | .failed e m => .errNoResp e m none
  | .built tx m =>
    match env.encodeErr with
    | some e => .errNoResp e m (some tx)
    | none =>
      match env.broadcast with
      | .transportErr e => .errNoResp e m (some tx)
      | .respWithErr r e => .errWithResp r e m tx
      | .resp r => .okResp r m tx

/-- A queue entry (`msg`, `fee_payer.go:41`): the domain message and the fee
denomination.  The reply channel is modelled by the `sends` field of
`StepOut`. -/
structure Msg where
  Msg : MsgEthereumTx
  EvmDenom : String
deriving DecidableEq, Repr

/-- The worker's loop-local state (`fee_payer.go:102`): the cached account
number and sequence, and the `getAccount` refresh flag.  `getAccount = true`
is the spec's `NeedsAccountRefresh` state, `false` is `Ready`. -/
structure WorkerState where
  accountNum : Nat
  accountSeq : Nat
  getAccount : Bool
deriving DecidableEq, Repr

/-- A `res` value sent on a request's reply channel (`fee_payer.go:36`). -/
inductive Reply where
  | okHash (h : Nat)
  | failure (e : GoErr)
deriving DecidableEq, Repr

/-- The per-iteration environment: what `GetAccountNumberSequence` returns
(all three values — Go assigns the number and sequence even when the error is
non-nil), and the environment of the `sendMsg` call. -/
structure IterEnv where
  refreshNum : Nat
  refreshSeq : Nat
  refreshErr : Option GoErr
  send : SendEnv

/-- The observable outcome of one worker iteration: the state afterwards, the
replies sent on the dequeued request's channel, the submitted envelope (if the
iteration got as far as building one), the state of the message object, and
whether the goroutine panicked. -/
structure StepOut where
  state : WorkerState
  sends : List Reply
  submitted : Option Envelope
  msgAfter : MsgEthereumTx
  crashed : Bool
deriving DecidableEq, Repr

/-- The sequence number placed in the envelope this iteration submitted. -/
def StepOut.submittedSeq (o : StepOut) : Option Nat :=
  o.submitted.map Envelope.sequence

/-- The iteration replied with a success result (a transaction hash). -/
def StepOut.isSuccess (o : StepOut) : Bool :=
  match o.sends with
  | [Reply.okHash _] => true
  | _ => false

/-- The part of a worker iteration after the account-refresh block
(`fee_payer.go:125`): call `sendMsg` with the cached number and sequence and
interpret the `(resp, err)` pair.  `hashFn` abstracts
`Msg.AsTransaction().Hash()`; it is applied to the message object in its
post-`buildTx` state, exactly as the Go code does. -/
def workerProcess (hashFn : MsgEthereumTx → Nat) (chainID payerAddress : String)
    (st : WorkerState) (m : Msg) (env : SendEnv) : StepOut :=
  match sendMsg env chainID payerAddress m.Msg m.EvmDenom st.accountNum st.accountSeq with
  | .panicked _r mf =>
      { state := st, sends := [], submitted := none, msgAfter := mf, crashed := true }
  | .errNoResp e mf tx =>
      { state := st, sends := [.failure e], submitted := tx, msgAfter := mf, crashed := false }
  | .errWithResp r _e mf tx =>
      { state := st
        sends := [.failure (.abci r.codespace r.code r.rawLog)]
        submitted := some tx, msgAfter := mf, crashed := false }
  | .okResp r mf tx =>
      if r.code ≠ 0 ∧ r.code ≠ errTxInMempoolCacheCode then
        let st1 := if r.code = errWrongSequenceCode then { st with getAccount := true } else st
        { state := st1
          sends := [.failure (.abci r.codespace r.code r.rawLog)]
          submitted := some tx, msgAfter := mf, crashed := false }
      else
        { state := { st with accountSeq := st.accountSeq + 1 }
          sends := [.okHash (hashFn mf)]
          submitted := some tx, msgAfter := mf, crashed := false }

/-- One iteration of `(fp *feePayer) Worker()` (`fee_payer.go:97`) for one
dequeued request.  When `getAccount` is set, the Go code executes
`accountNum, accountSeq, err = GetAccountNumberSequence(...)`: the returned
number and sequence are assigned even when `err != nil`, and on error the
iteration replies and continues with `getAccount` still set. -/
def workerStep (hashFn : MsgEthereumTx → Nat) (chainID payerAddress : String)
    (st : WorkerState) (m : Msg) (env : IterEnv) : StepOut :=
  if st.getAccount then
    match env.refreshErr with
    | some e =>
        { state := { accountNum := env.refreshNum, accountSeq := env.refreshSeq
                     getAccount := true }
          sends := [.failure (.wrapped "failed to get account" e)]
          submitted := none, msgAfter := m.Msg, crashed := false }
    | none =>
        workerProcess hashFn chainID payerAddress
          { accountNum := env.refreshNum, accountSeq := env.refreshSeq
            getAccount := false } m env.send
  else
    workerProcess hashFn chainID payerAddress st m env.send

/-- A run of the worker loop over a list of dequeued requests with their
environments.  An unrecovered panic terminates the goroutine, so a crashed
iteration ends the run. -/
def workerRun (hashFn : MsgEthereumTx → Nat) (chainID payerAddress : String)
    (st : WorkerState) : List (Msg × IterEnv) → WorkerState × List StepOut
  | [] => (st, [])
  | (m, env) :: rest =>
      let out := workerStep hashFn chainID payerAddress st m env
      if out.crashed then
        (out.state, [out])
      else
        let r := workerRun hashFn chainID payerAddress out.state rest
        (r.1, out :: r.2)

/-! ## Concrete instances used by counterexamples and witnesses -/

/-- A concrete inbound domain message with a non-empty `From` field. -/
def msgA : MsgEthereumTx := { From := "0xabc", gas := 100000, payload := 42 }

/-- The queue entry carrying `msgA`. -/
def queueA : Msg := { Msg := msgA, EvmDenom := "aevmos" }

/-- A concrete stand-in for `AsTransaction().Hash()`. -/
def hashA : MsgEthereumTx → Nat := fun mm => mm.gas + mm.payload

/-- Fee environment with base fee 123 and change denominator 8 (the values
used by the repository's own tests). -/
def feeEnvA : FeeEnv := goodFeeEnv 123 8

/-- Build environment in which every external call succeeds. -/
def buildEnvA : BuildEnv :=
  { fee := feeEnvA, anyErr := none, setMsgsErr := none, placeholderSigErr := none
    signRes := .ok 1, setSigsErr := none }

/-- The envelope `buildTx` produces from `msgA` under `buildEnvA` with
account number 2 and sequence 7. -/
def txA7 : Envelope :=
  { hasEthExtensionOption := true, gasLimit := 100000
    fees := [("aevmos", 15500000)]
    msgs := [{ From := "", gas := 100000, payload := 42 }]
    feePayer := "payer", chainID := "chain", accountNumber := 2
    sequence := 7, signature := 1 }

/-- Send environment whose broadcast fully accepts (code 0). -/
def sendEnvOk : SendEnv :=
  { build := buildEnvA, encodeErr := none
    broadcast := .resp { code := 0, codespace := "", rawLog := "" } }

/-- Iteration environment: refresh succeeds with `(0, 0)`, broadcast accepts. -/
def iterEnvOk : IterEnv :=
  { refreshNum := 0, refreshSeq := 0, refreshErr := none, send := sendEnvOk }

/-- Fee environment whose base-fee query returns exactly zero. -/
def feeEnvZero : FeeEnv := goodFeeEnv 0 8

/-- Build environment over the zero base fee. -/
def buildEnvZero : BuildEnv := { buildEnvA with fee := feeEnvZero }

/-! ## Helper lemmas -/

/-- The envelope built by `buildTx` carries the account sequence it was given,
and the message object ends with its `From` field cleared. -/
theorem buildTx_built_inv {env : BuildEnv} {c p : String} {m : MsgEthereumTx}
    {d : String} {n s : Nat} {tx : Envelope} {mf : MsgEthereumTx}
    (h : buildTx env c p m d n s = .built tx mf) :
    tx.sequence = s ∧ mf = { m with From := "" } := by
  unfold buildTx at h
  repeat' split at h
  all_goals first
    | (obtain ⟨h1, h2⟩ := BuildOutcome.built.inj h
       exact ⟨h1 ▸ rfl, h2.symm⟩)
    | exact absurd h (by simp)

/-- The envelope carried by a `sendMsg` outcome, if any. -/
def SendOutcome.txOf : SendOutcome → Option Envelope
  | .panicked _ _ => none
  | .errNoResp _ _ tx => tx
  | .errWithResp _ _ _ tx => some tx
  | .okResp _ _ tx => some tx

/-- Any envelope that reaches the broadcaster carries the sequence passed to
`sendMsg`. -/
theorem sendMsg_txOf_sequence {env : SendEnv} {c p : String} {m : MsgEthereumTx}
    {d : String} {n s : Nat} {tx : Envelope}
    (h : (sendMsg env c p m d n s).txOf = some tx) :
    tx.sequence = s := by
  unfold sendMsg at h
  repeat' split at h
  all_goals try simp only [SendOutcome.txOf, Option.some.injEq] at h
  all_goals cases h
  all_goals
    apply And.left
    apply buildTx_built_inv
    assumption

/-- An `okResp` outcome of `sendMsg` comes from a successfully built
envelope. -/
theorem sendMsg_okResp_built {env : SendEnv} {c p : String} {m : MsgEthereumTx}
    {d : String} {n s : Nat} {r : BroadcastResp} {mf : MsgEthereumTx} {tx : Envelope}
    (h : sendMsg env c p m d n s = .okResp r mf tx) :
    buildTx env.build c p m d n s = .built tx mf := by
  unfold sendMsg at h
  repeat' split at h
  all_goals simp_all

/-- In the `Ready` state, an iteration is just `workerProcess`. -/
theorem workerStep_ready {hashFn : MsgEthereumTx → Nat} {c p : String}
    {st : WorkerState} {m : Msg} {env : IterEnv} (hga : st.getAccount = false) :
    workerStep hashFn c p st m env = workerProcess hashFn c p st m env.send := by
  simp [workerStep, hga]

/-- Whatever the broadcast outcome, the envelope submitted by `workerProcess`
is the one carried by the `sendMsg` outcome. -/
theorem workerProcess_submitted {hashFn : MsgEthereumTx → Nat} {c p : String}
    {st : WorkerState} {m : Msg} {env : SendEnv} :
    (workerProcess hashFn c p st m env).submitted
      = (sendMsg env c p m.Msg m.EvmDenom st.accountNum st.accountSeq).txOf := by
  unfold workerProcess
  repeat' split
  all_goals simp_all [SendOutcome.txOf]

/-- A success iteration of `workerProcess` increments the cached sequence by
exactly one, keeps the account number and the `Ready` state, submits an
envelope carrying the pre-increment sequence, and does not crash. -/
theorem workerProcess_success_inv {hashFn : MsgEthereumTx → Nat} {c p : String}
    {st : WorkerState} {m : Msg} {env : SendEnv}
    (h : (workerProcess hashFn c p st m env).isSuccess = true) :
    (workerProcess hashFn c p st m env).state
        = { st with accountSeq := st.accountSeq + 1 }
    ∧ (workerProcess hashFn c p st m env).submittedSeq = some st.accountSeq
    ∧ (workerProcess hashFn c p st m env).crashed = false := by
  rcases hs : sendMsg env c p m.Msg m.EvmDenom st.accountNum st.accountSeq with
    ⟨r0, mf0⟩ | ⟨e0, mf0, tx0⟩ | ⟨r0, e0, mf0, tx0⟩ | ⟨r0, mf0, tx0⟩
  · simp [workerProcess, hs, StepOut.isSuccess] at h
  · simp [workerProcess, hs, StepOut.isSuccess] at h
  · simp [workerProcess, hs, StepOut.isSuccess] at h
  · by_cases hc : r0.code ≠ 0 ∧ r0.code ≠ errTxInMempoolCacheCode
    · simp [workerProcess, hs, hc, StepOut.isSuccess] at h
    · refine ⟨?_, ?_, ?_⟩
      · simp [workerProcess, hs, hc]
      · have hseq : tx0.sequence = st.accountSeq :=
          sendMsg_txOf_sequence (by rw [hs]; rfl)
        simp [workerProcess, hs, hc, StepOut.submittedSeq, hseq]
      · simp [workerProcess, hs, hc]

/-- An iteration that starts in the refresh state with a successful account
query builds its envelope (if it gets that far) with the freshly queried
sequence. -/
theorem workerStep_refresh_submitted {hashFn : MsgEthereumTx → Nat} {c p : String}
    {st : WorkerState} {m : Msg} {env : IterEnv}
    (hga : st.getAccount = true) (hre : env.refreshErr = none) :
    ∀ tx, (workerStep hashFn c p st m env).submitted = some tx →
      tx.sequence = env.refreshSeq := by
  intro tx htx
  rw [workerStep, hga] at htx
  simp only [if_true, hre] at htx
  rw [workerProcess_submitted] at htx
  exact sendMsg_txOf_sequence htx

/-- The sequence values `s, s+1, …, s+N-1`, boxed in `some`, are pairwise
distinct. -/
theorem nodup_some_add (s N : Nat) :
    ((List.range N).map (fun i => some (s + i))).Nodup := by
  refine (List.nodup_range N).map ?_
  intro i j hij
  simp only [Option.some.injEq] at hij
  omega

/-- On a natural base fee `X`, the program's projected amount is exactly the
spec's quote (both use floor division, since everything is nonnegative). -/
theorem projectedAmount_cast_eq (X a g : Nat) :
    projectedAmount (X : Int) a g = ((specFeeQuote X a g : Nat) : Int) := by
  have key : Int.ediv ((X : Int) * ((a : Int) + 1) ^ 2) ((a : Int) ^ 2)
      = ((X * (a + 1) ^ 2 / a ^ 2 : Nat) : Int) := by
    have e1 : ((X : Int) * ((a : Int) + 1) ^ 2) = ((X * (a + 1) ^ 2 : Nat) : Int) := by
      push_cast; ring
    have e2 : (((a : Int)) ^ 2) = ((a ^ 2 : Nat) : Int) := by push_cast; ring
    rw [e1, e2]
    rfl
  simp only [projectedAmount, baseFeeDeltaBlocks, key, specFeeQuote]
  push_cast
  ring_nf

/-- Whatever the base fee, the projected amount is at least `2 * gas`: the
per-gas price is `BigMax(…, 2)`. -/
theorem two_mul_le_projectedAmount (baseFee0 : Int) (a g : Nat) :
    (2 * g : Int) ≤ projectedAmount baseFee0 a g := by
  simp only [projectedAmount, baseFeeDeltaBlocks]
  have h2 : (2 : Int) ≤ max (Int.ediv (baseFee0 * ((a : Int) + 1) ^ 2) ((a : Int) ^ 2))
      (1 * ((2 : Nat) : Int)) := by simp
  exact mul_le_mul_of_nonneg_right h2 (by positivity)

/-- On a positive base fee `X` with positive change denominator `a`, and an
amount below the `sdkmath.Int` bound, the fee estimator returns exactly the
spec's quote, with no error. -/
theorem calcFees_pos_eq (X a g : Nat) (hX : 0 < X) (ha : 0 < a)
    (hfit : specFeeQuote X a g < 2 ^ maxBitLen) :
    calculateFeePayerFees (goodFeeEnv (X : Int) a) g
      = .ret (.val ((specFeeQuote X a g : Nat) : Int)) none := by
  have hX0 : ((X : Int)) ≠ 0 := by exact_mod_cast hX.ne'
  have hp := projectedAmount_cast_eq X a g
  simp only [calculateFeePayerFees, goodFeeEnv, hX0, if_false, ha.ne', ite_false, hp]
  rw [Int.natAbs_ofNat, if_neg (Nat.not_le.mpr hfit)]

/-! ## Further concrete environments for counterexamples and witnesses -/

/-- Send environment over the zero base fee, broadcast accepting. -/
def sendEnvZero : SendEnv :=
  { build := buildEnvZero, encodeErr := none
    broadcast := .resp { code := 0, codespace := "", rawLog := "" } }

/-- Iteration environment over the zero base fee. -/
def iterEnvZero : IterEnv :=
  { refreshNum := 0, refreshSeq := 0, refreshErr := none, send := sendEnvZero }

/-- Iteration environment whose account query fails (the query returns
`0, 0, err`, as the standard `AccountRetriever` does on error). -/
def refreshFailEnv : IterEnv :=
  { refreshNum := 0, refreshSeq := 0, refreshErr := some (.external "EOF")
    send := sendEnvOk }

/-- A duplicate-pending broadcast response. -/
def respDup : BroadcastResp :=
  { code := 19, codespace := "sdk", rawLog := "tx already exists in cache" }

/-- A sequence-mismatch broadcast response. -/
def respSeqMismatch : BroadcastResp :=
  { code := 32, codespace := "sdk", rawLog := "incorrect account sequence" }

/-- Iteration environment whose broadcast returns the duplicate-pending
code. -/
def iterEnvDup : IterEnv :=
  { refreshNum := 0, refreshSeq := 0, refreshErr := none
    send := { build := buildEnvA, encodeErr := none, broadcast := .resp respDup } }

/-- Iteration environment whose broadcast returns the sequence-mismatch
code. -/
def iterEnvSeqMismatch : IterEnv :=
  { refreshNum := 0, refreshSeq := 0, refreshErr := none
    send := { build := buildEnvA, encodeErr := none
              broadcast := .resp respSeqMismatch } }

/-- Iteration environment whose broadcast call itself fails (transport
error, nil response). -/
def iterEnvTransport : IterEnv :=
  { refreshNum := 0, refreshSeq := 0, refreshErr := none
    send := { build := buildEnvA, encodeErr := none
              broadcast := .transportErr (.external "connection refused") } }

/-- The message object after `buildTx` cleared its `From` field. -/
def msgACleared : MsgEthereumTx := { From := "", gas := 100000, payload := 42 }

/-! ## Claims -/

/-- C2: on a base fee of exactly zero the estimator was specified to return
amount 0 with no error, and the envelope was to carry no fee line.  The code
instead discards the result of `sdkmath.NewInt(0)` and returns the
uninitialized zero-value `sdkmath.Int` (nil inner pointer) with nil error,
and `buildTx` then panics dereferencing it in `feeAmt.Sign()`, so no envelope
is produced at all. -/
theorem calc_zero_base_fee_nil_int_and_panic :
    calculateFeePayerFees feeEnvZero 100000 = .ret .nilInt none
    ∧ buildTx buildEnvZero "chain" "payer" msgA "aevmos" 2 7
        = .panicked "nil pointer dereference" msgA := by
  constructor <;> rfl

/-- C3 (counterexample): the claim that the estimator returns the formula
value for every `X > 0`, `a > 0`, `g` with all queries succeeding fails: at
base fee `2^250` (within the 256-bit range an `sdkmath.Int` response can
carry), denominator 1 and gas `2^60`, the amount `2^252 * 2^60 = 2^312`
exceeds the 256-bit `sdkmath.Int` bound and `sdkmath.NewIntFromBigInt`
panics instead of returning it. -/
theorem fee_estimator_overflow_panics :
    calculateFeePayerFees (goodFeeEnv ((2 ^ 250 : Nat) : Int) 1) (2 ^ 60)
        = .panicked "NewIntFromBigInt() out of bound"
    ∧ calculateFeePayerFees (goodFeeEnv ((2 ^ 250 : Nat) : Int) 1) (2 ^ 60)
        ≠ .ret (.val ((specFeeQuote (2 ^ 250) 1 (2 ^ 60) : Nat) : Int)) none := by
  constructor <;> decide

/-- C3 (amended): on a positive base fee `X` and positive change denominator
`a`, with all three queries succeeding and the resulting amount below the
256-bit `sdkmath.Int` bound, the estimated fee for gas limit `g` is exactly
`max(floor(X*(a+1)^2/a^2), 2) * g`, computed in exact integer arithmetic
(lookahead 2), with no error; an amount of 256 or more bits makes the
estimator panic in `sdkmath.NewIntFromBigInt` instead. -/
theorem fee_estimator_exact_projection (X a g : Nat) (hX : 0 < X) (ha : 0 < a)
    (hfit : specFeeQuote X a g < 2 ^ maxBitLen) :
    calculateFeePayerFees (goodFeeEnv (X : Int) a) g
      = .ret (.val ((specFeeQuote X a g : Nat) : Int)) none :=
  calcFees_pos_eq X a g hX ha hfit

/-- Witness for C3 at the repository's own test values: base fee 123,
denominator 8, gas 100000, giving `max(123*81/64, 2) * 100000 = 15500000`,
comfortably below `2^256`. -/
theorem fee_estimator_exact_projection_witness :
    0 < 123 ∧ 0 < 8 ∧ specFeeQuote 123 8 100000 < 2 ^ maxBitLen
    ∧ calculateFeePayerFees (goodFeeEnv ((123 : Nat) : Int) 8) 100000
        = .ret (.val ((specFeeQuote 123 8 100000 : Nat) : Int)) none :=
  ⟨by decide, by decide, by decide,
   fee_estimator_exact_projection 123 8 100000 (by decide) (by decide) (by decide)⟩

/-- C4: a broadcast answered with the duplicate-pending code
(`ErrTxInMempoolCache`, 19) is treated as a success: the worker replies with
the hash of the (From-cleared) signed domain message and increments the
cached sequence by one, keeping the account number and the `Ready` state. -/
theorem worker_duplicate_pending_success
    (hashFn : MsgEthereumTx → Nat) (chainID payerAddress : String)
    (st : WorkerState) (m : Msg) (env : IterEnv)
    (r : BroadcastResp) (mf : MsgEthereumTx) (tx : Envelope)
    (hready : st.getAccount = false)
    (hsend : sendMsg env.send chainID payerAddress m.Msg m.EvmDenom
        st.accountNum st.accountSeq = .okResp r mf tx)
    (hcode : r.code = errTxInMempoolCacheCode) :
    (workerStep hashFn chainID payerAddress st m env).sends
        = [Reply.okHash (hashFn mf)]
    ∧ mf = { m.Msg with From := "" }
    ∧ (workerStep hashFn chainID payerAddress st m env).state
        = { st with accountSeq := st.accountSeq + 1 } := by
  have hmf := (buildTx_built_inv (sendMsg_okResp_built hsend)).2
  have hc : ¬(r.code ≠ 0 ∧ r.code ≠ errTxInMempoolCacheCode) := by
    rw [hcode]; simp
  rw [workerStep_ready hready]
  refine ⟨?_, hmf, ?_⟩ <;> simp [workerProcess, hsend, hc]

/-- Witness for C4: concrete state `(2, 7, Ready)` and a code-19 response;
the reply is the success hash and the cached sequence becomes 8. -/
theorem worker_duplicate_pending_success_witness :
    sendMsg iterEnvDup.send "chain" "payer" queueA.Msg queueA.EvmDenom 2 7
        = .okResp respDup msgACleared (txA7)
    ∧ ((workerStep hashA "chain" "payer"
          { accountNum := 2, accountSeq := 7, getAccount := false } queueA iterEnvDup).sends
        = [Reply.okHash (hashA msgACleared)]
      ∧ msgACleared = { queueA.Msg with From := "" }
      ∧ (workerStep hashA "chain" "payer"
          { accountNum := 2, accountSeq := 7, getAccount := false } queueA iterEnvDup).state
        = { accountNum := 2, accountSeq := 8, getAccount := false }) :=
  ⟨by decide,
   worker_duplicate_pending_success hashA "chain" "payer"
     { accountNum := 2, accountSeq := 7, getAccount := false } queueA iterEnvDup
     respDup msgACleared txA7 rfl (by decide) rfl⟩

/-- C5: a broadcast answered with the sequence-mismatch code
(`ErrWrongSequence`, 32) makes the worker reply with the rejection error,
leave the cached sequence and account number untouched, and set the refresh
flag, so that the next iteration (with a successful account query) builds its
envelope with the freshly queried sequence. -/
theorem worker_sequence_mismatch_recovery
    (hashFn : MsgEthereumTx → Nat) (chainID payerAddress : String)
    (st : WorkerState) (m : Msg) (env : IterEnv)
    (r : BroadcastResp) (mf : MsgEthereumTx) (tx : Envelope)
    (hready : st.getAccount = false)
    (hsend : sendMsg env.send chainID payerAddress m.Msg m.EvmDenom
        st.accountNum st.accountSeq = .okResp r mf tx)
    (hcode : r.code = errWrongSequenceCode) :
    (workerStep hashFn chainID payerAddress st m env).sends
        = [Reply.failure (.abci r.codespace r.code r.rawLog)]
    ∧ (workerStep hashFn chainID payerAddress st m env).state
        = { st with getAccount := true }
    ∧ ∀ (m2 : Msg) (env2 : IterEnv), env2.refreshErr = none →
        ∀ tx2, (workerStep hashFn chainID payerAddress
            (workerStep hashFn chainID payerAddress st m env).state m2 env2).submitted
          = some tx2 → tx2.sequence = env2.refreshSeq := by
  have hc : r.code ≠ 0 ∧ r.code ≠ errTxInMempoolCacheCode := by
    rw [hcode]; exact ⟨by decide, by decide⟩
  rw [workerStep_ready hready]
  have hstate : (workerProcess hashFn chainID payerAddress st m env.send).state
      = { st with getAccount := true } := by
    simp [workerProcess, hsend, hc, hcode, errWrongSequenceCode,
      errTxInMempoolCacheCode]
  refine ⟨?_, hstate, ?_⟩
  · simp [workerProcess, hsend, hc]
  · intro m2 env2 hre tx2 htx
    rw [hstate] at htx
    exact workerStep_refresh_submitted rfl hre tx2 htx

/-- Witness for C5: concrete state `(2, 7, Ready)` and a code-32 response;
the reply is the ABCI error, the state becomes `(2, 7, NeedsAccountRefresh)`,
and a following iteration with a successful query uses the fresh sequence. -/
theorem worker_sequence_mismatch_recovery_witness :
    sendMsg iterEnvSeqMismatch.send "chain" "payer" queueA.Msg queueA.EvmDenom 2 7
        = .okResp respSeqMismatch msgACleared txA7
    ∧ ((workerStep hashA "chain" "payer"
          { accountNum := 2, accountSeq := 7, getAccount := false } queueA
          iterEnvSeqMismatch).sends
        = [Reply.failure (.abci respSeqMismatch.codespace respSeqMismatch.code
            respSeqMismatch.rawLog)]
      ∧ (workerStep hashA "chain" "payer"
          { accountNum := 2, accountSeq := 7, getAccount := false } queueA
          iterEnvSeqMismatch).state
        = { accountNum := 2, accountSeq := 7, getAccount := true }
      ∧ ∀ (m2 : Msg) (env2 : IterEnv), env2.refreshErr = none →
          ∀ tx2, (workerStep hashA "chain" "payer"
              (workerStep hashA "chain" "payer"
                { accountNum := 2, accountSeq := 7, getAccount := false } queueA
                iterEnvSeqMismatch).state m2 env2).submitted
            = some tx2 → tx2.sequence = env2.refreshSeq) :=
  ⟨by decide,
   worker_sequence_mismatch_recovery hashA "chain" "payer"
     { accountNum := 2, accountSeq := 7, getAccount := false } queueA
     iterEnvSeqMismatch respSeqMismatch msgACleared txA7 rfl (by decide) rfl⟩

/-- C6 (counterexample): a failed account query does NOT leave the cached
account number and sequence unchanged.  Starting from cached `(5, 7)` in the
refresh state, the Go tuple assignment stores the values returned alongside
the error — `(0, 0)` for the standard retriever — so both caches change. -/
theorem worker_refresh_failure_overwrites_cache :
    (workerStep hashA "chain" "payer"
        { accountNum := 5, accountSeq := 7, getAccount := true } queueA
        refreshFailEnv).state.accountNum ≠ 5
    ∧ (workerStep hashA "chain" "payer"
        { accountNum := 5, accountSeq := 7, getAccount := true } queueA
        refreshFailEnv).state.accountSeq ≠ 7 := by
  constructor <;> decide

/-- C6 (amended): a worker iteration in the refresh state whose account query
fails replies to the current request with the wrapped query error, consumes
it (nothing is submitted, no crash), stays in the refresh state, and
overwrites the cached account number and sequence with the values returned
alongside the failed query (zero for the standard retriever) rather than
leaving them unchanged; they are queried afresh before any later use. -/
theorem worker_refresh_failure_behavior
    (hashFn : MsgEthereumTx → Nat) (chainID payerAddress : String)
    (st : WorkerState) (m : Msg) (env : IterEnv) (e : GoErr)
    (hga : st.getAccount = true) (hre : env.refreshErr = some e) :
    (workerStep hashFn chainID payerAddress st m env).sends
        = [Reply.failure (.wrapped "failed to get account" e)]
    ∧ (workerStep hashFn chainID payerAddress st m env).state
        = { accountNum := env.refreshNum, accountSeq := env.refreshSeq
            getAccount := true }
    ∧ (workerStep hashFn chainID payerAddress st m env).submitted = none
    ∧ (workerStep hashFn chainID payerAddress st m env).crashed = false := by
  simp [workerStep, hga, hre]

/-- Witness for C6 (amended): at cached `(5, 7)` with a failed query
returning `(0, 0)`, the reply is the wrapped error and the cache becomes
`(0, 0)` with the refresh flag still set. -/
theorem worker_refresh_failure_behavior_witness :
    refreshFailEnv.refreshErr = some (.external "EOF")
    ∧ ((workerStep hashA "chain" "payer"
          { accountNum := 5, accountSeq := 7, getAccount := true } queueA
          refreshFailEnv).sends
        = [Reply.failure (.wrapped "failed to get account" (.external "EOF"))]
      ∧ (workerStep hashA "chain" "payer"
          { accountNum := 5, accountSeq := 7, getAccount := true } queueA
          refreshFailEnv).state
        = { accountNum := 0, accountSeq := 0, getAccount := true }
      ∧ (workerStep hashA "chain" "payer"
          { accountNum := 5, accountSeq := 7, getAccount := true } queueA
          refreshFailEnv).submitted = none
      ∧ (workerStep hashA "chain" "payer"
          { accountNum := 5, accountSeq := 7, getAccount := true } queueA
          refreshFailEnv).crashed = false) :=
  ⟨by decide,
   worker_refresh_failure_behavior hashA "chain" "payer"
     { accountNum := 5, accountSeq := 7, getAccount := true } queueA
     refreshFailEnv (.external "EOF") rfl rfl⟩

/-- C7: when `sendMsg` returns an error with a nil response — in particular
when the broadcast call itself fails with a transport error — the worker
replies with exactly that error and leaves the whole cached state (account
number, sequence, and the `Ready` flag) unchanged. -/
theorem worker_transport_error_keeps_state
    (hashFn : MsgEthereumTx → Nat) (chainID payerAddress : String)
    (st : WorkerState) (m : Msg) (env : IterEnv)
    (e : GoErr) (mf : MsgEthereumTx) (txq : Option Envelope)
    (hready : st.getAccount = false)
    (hsend : sendMsg env.send chainID payerAddress m.Msg m.EvmDenom
        st.accountNum st.accountSeq = .errNoResp e mf txq) :
    (workerStep hashFn chainID payerAddress st m env).sends = [Reply.failure e]
    ∧ (workerStep hashFn chainID payerAddress st m env).state = st
    ∧ (workerStep hashFn chainID payerAddress st m env).crashed = false := by
  rw [workerStep_ready hready]
  refine ⟨?_, ?_, ?_⟩ <;> simp [workerProcess, hsend]

/-- Witness for C7: a broadcast transport failure at cached `(2, 7)` is
replied verbatim and the state stays `(2, 7, Ready)`. -/
theorem worker_transport_error_keeps_state_witness :
    sendMsg iterEnvTransport.send "chain" "payer" queueA.Msg queueA.EvmDenom 2 7
        = .errNoResp (.external "connection refused") msgACleared (some txA7)
    ∧ ((workerStep hashA "chain" "payer"
          { accountNum := 2, accountSeq := 7, getAccount := false } queueA
          iterEnvTransport).sends
        = [Reply.failure (.external "connection refused")]
      ∧ (workerStep hashA "chain" "payer"
          { accountNum := 2, accountSeq := 7, getAccount := false } queueA
          iterEnvTransport).state
        = { accountNum := 2, accountSeq := 7, getAccount := false }
      ∧ (workerStep hashA "chain" "payer"
          { accountNum := 2, accountSeq := 7, getAccount := false } queueA
          iterEnvTransport).crashed = false) :=
  ⟨by decide,
   worker_transport_error_keeps_state hashA "chain" "payer"
     { accountNum := 2, accountSeq := 7, getAccount := false } queueA
     iterEnvTransport (.external "connection refused") msgACleared (some txA7)
     rfl (by decide)⟩

/-- C8: the claim that every dequeued request receives exactly one result on
every control path fails on the code: a request processed while the queried
base fee is zero drives `buildTx` into the nil-Int panic (the discarded
`sdkmath.NewInt(0)`), the goroutine crashes, and nothing is sent on the reply
channel. -/
theorem worker_zero_base_fee_drops_reply :
    (workerStep hashA "chain" "payer"
        { accountNum := 2, accountSeq := 7, getAccount := false } queueA
        iterEnvZero).sends = []
    ∧ (workerStep hashA "chain" "payer"
        { accountNum := 2, accountSeq := 7, getAccount := false } queueA
        iterEnvZero).crashed = true := by
  constructor <;> rfl

/-- C9 (counterexample): the inbound domain message is NOT left unmutated by
processing: `buildTx` clears its `From` field in place, so a message enqueued
with `From = "0xabc"` ends with `From = ""`. -/
theorem buildTx_clears_inbound_from :
    msgA.From = "0xabc"
    ∧ (buildTx buildEnvA "chain" "payer" msgA "aevmos" 2 7).msgAfter.From = "" := by
  constructor <;> rfl

/-- C9 (amended): processing mutates the inbound domain message only by
clearing its `From` field (once fee calculation has succeeded); every other
field keeps its enqueue-time value, and on the early error paths the message
is untouched. -/
theorem buildTx_mutates_only_from (env : BuildEnv) (chainID payerAddress : String)
    (m : MsgEthereumTx) (evmDenom : String) (accountNumber accountSequence : Nat) :
    (buildTx env chainID payerAddress m evmDenom accountNumber accountSequence).msgAfter = m
    ∨ (buildTx env chainID payerAddress m evmDenom accountNumber accountSequence).msgAfter
        = { m with From := "" } := by
  unfold buildTx
  repeat' split
  all_goals simp [BuildOutcome.msgAfter]

/-- C10: for positive gas `g`, whenever the fee estimator returns without
error on a positive base fee — over any block and params query responses —
the returned amount is at least `2 * g` (the per-gas price is floored at the
lookahead constant 2), so a successful quote for a positive base fee is never
zero.  On the paths where the code instead errors or panics (including the
256-bit overflow panic of `sdkmath.NewIntFromBigInt`) the hypothesis does not
hold and nothing is claimed. -/
theorem fee_quote_floored_positive
    (br : Except GoErr Int) (pr : Except GoErr Nat)
    (X : Int) (g : Nat) (amt : Int) (hX : 0 < X) (hg : 0 < g)
    (hret : calculateFeePayerFees
        { blockRes := br, baseFeeRes := .ok (some X), paramsRes := pr } g
      = .ret (.val amt) none) :
    (2 * g : Int) ≤ amt ∧ amt ≠ 0 := by
  cases br with
  | error e => simp [calculateFeePayerFees] at hret
  | ok ht =>
    simp only [calculateFeePayerFees] at hret
    rw [if_neg hX.ne'] at hret
    cases pr with
    | error e => simp at hret
    | ok a =>
      dsimp only at hret
      by_cases ha0 : a = 0
      · rw [if_pos ha0] at hret
        exact absurd hret (by simp)
      · rw [if_neg ha0] at hret
        by_cases hov : 2 ^ maxBitLen ≤ (projectedAmount X a g).natAbs
        · rw [if_pos hov] at hret
          exact absurd hret (by simp)
        · rw [if_neg hov] at hret
          obtain ⟨h1, -⟩ := CalcOutcome.ret.inj hret
          have h2 : projectedAmount X a g = amt := SdkInt.val.inj h1
          have hle : (2 * g : Int) ≤ amt := h2 ▸ two_mul_le_projectedAmount X a g
          have hpos : (0 : Int) < 2 * g := by
            exact_mod_cast Nat.mul_pos (by norm_num) hg
          exact ⟨hle, (lt_of_lt_of_le hpos hle).ne'⟩

/-- Witness for C10 at base fee 123, denominator 8, gas 100000: the
estimator returns `15500000`, which is at least `2 * 100000` and nonzero. -/
theorem fee_quote_floored_positive_witness :
    calculateFeePayerFees
        { blockRes := .ok 1, baseFeeRes := .ok (some 123), paramsRes := .ok 8 }
        100000
      = .ret (.val 15500000) none
    ∧ ((2 * 100000 : Int) ≤ 15500000 ∧ (15500000 : Int) ≠ 0) :=
  ⟨by decide,
   fee_quote_floored_positive (.ok 1) (.ok 8) 123 100000 15500000
     (by decide) (by decide) (by decide)⟩

/-- C1: starting from the `Ready` state with cached sequence `s`, a run of
the worker loop in which every processed request succeeds (broadcast code 0
or the duplicate-pending code) places exactly the sequences
`s, s+1, …, s+N-1` in the `N` submitted envelopes, each exactly once
(the mapped list is duplicate-free); the cached sequence ends at `s+N`,
having been incremented by exactly one per success, and the worker is still
`Ready`. -/
theorem worker_monotonic_sequencing
    (hashFn : MsgEthereumTx → Nat) (chainID payerAddress : String)
    (st : WorkerState) (inputs : List (Msg × IterEnv))
    (hready : st.getAccount = false)
    (hsucc : ∀ out ∈ (workerRun hashFn chainID payerAddress st inputs).2,
        out.isSuccess = true) :
    (workerRun hashFn chainID payerAddress st inputs).2.map StepOut.submittedSeq
        = (List.range inputs.length).map (fun i => some (st.accountSeq + i))
    ∧ (workerRun hashFn chainID payerAddress st inputs).1.accountSeq
        = st.accountSeq + inputs.length
    ∧ (workerRun hashFn chainID payerAddress st inputs).1.getAccount = false
    ∧ ((workerRun hashFn chainID payerAddress st inputs).2.map
        StepOut.submittedSeq).Nodup := by
  induction inputs generalizing st with
  | nil => simp [workerRun, hready]
  | cons head rest ih =>
    obtain ⟨m, env⟩ := head
    have hmem : workerStep hashFn chainID payerAddress st m env
        ∈ (workerRun hashFn chainID payerAddress st ((m, env) :: rest)).2 := by
      by_cases hcr : (workerStep hashFn chainID payerAddress st m env).crashed <;>
        simp [workerRun, hcr]
    have hS : (workerProcess hashFn chainID payerAddress st m env.send).isSuccess
        = true := by
      have h0 := hsucc _ hmem
      rwa [workerStep_ready hready] at h0
    obtain ⟨hstate, hseq, hcrash⟩ := workerProcess_success_inv hS
    have hstate' : (workerStep hashFn chainID payerAddress st m env).state
        = { st with accountSeq := st.accountSeq + 1 } := by
      rw [workerStep_ready hready]; exact hstate
    have hseq' : (workerStep hashFn chainID payerAddress st m env).submittedSeq
        = some st.accountSeq := by
      rw [workerStep_ready hready]; exact hseq
    have hcrash' : (workerStep hashFn chainID payerAddress st m env).crashed
        = false := by
      rw [workerStep_ready hready]; exact hcrash
    have hrun : workerRun hashFn chainID payerAddress st ((m, env) :: rest)
        = ((workerRun hashFn chainID payerAddress
              { st with accountSeq := st.accountSeq + 1 } rest).1,
           workerStep hashFn chainID payerAddress st m env
             :: (workerRun hashFn chainID payerAddress
                  { st with accountSeq := st.accountSeq + 1 } rest).2) := by
      rw [workerRun]
      simp only [hcrash', if_false, Bool.false_eq_true, hstate']
    have hsucc1 : ∀ o ∈ (workerRun hashFn chainID payerAddress
        { st with accountSeq := st.accountSeq + 1 } rest).2, o.isSuccess = true := by
      intro o ho
      apply hsucc
      rw [hrun]
      exact List.mem_cons_of_mem _ ho
    obtain ⟨ihmap, ihseq, ihga, ihnd⟩ :=
      ih { st with accountSeq := st.accountSeq + 1 } hready hsucc1
    have hmap : (workerRun hashFn chainID payerAddress st
          ((m, env) :: rest)).2.map StepOut.submittedSeq
        = (List.range ((m, env) :: rest).length).map
            (fun i => some (st.accountSeq + i)) := by
      rw [hrun]
      simp only [List.map_cons, hseq', List.length_cons]
      rw [ihmap, List.range_succ_eq_map, List.map_cons, List.map_map]
      refine congrArg₂ List.cons (by simp) ?_
      refine List.map_congr_left ?_
      intro i _
      simp only [Function.comp_apply, Option.some.injEq]
      omega
    refine ⟨hmap, ?_, ?_, ?_⟩
    · rw [hrun]
      simp only [List.length_cons]
      rw [ihseq]
      show st.accountSeq + 1 + rest.length = st.accountSeq + (rest.length + 1)
      omega
    · rw [hrun]
      exact ihga
    · rw [hmap]
      exact nodup_some_add st.accountSeq ((m, env) :: rest).length

/-- Witness for C1: two requests processed from `(2, 7, Ready)`, both fully
accepted, submit envelopes with sequences 7 and 8 and leave the cached
sequence at 9. -/
theorem worker_monotonic_sequencing_witness :
    (∀ out ∈ (workerRun hashA "chain" "payer"
        { accountNum := 2, accountSeq := 7, getAccount := false }
        [(queueA, iterEnvOk), (queueA, iterEnvOk)]).2, out.isSuccess = true)
    ∧ ((workerRun hashA "chain" "payer"
          { accountNum := 2, accountSeq := 7, getAccount := false }
          [(queueA, iterEnvOk), (queueA, iterEnvOk)]).2.map StepOut.submittedSeq
        = (List.range 2).map (fun i => some (7 + i))
      ∧ (workerRun hashA "chain" "payer"
          { accountNum := 2, accountSeq := 7, getAccount := false }
          [(queueA, iterEnvOk), (queueA, iterEnvOk)]).1.accountSeq = 7 + 2
      ∧ (workerRun hashA "chain" "payer"
          { accountNum := 2, accountSeq := 7, getAccount := false }
          [(queueA, iterEnvOk), (queueA, iterEnvOk)]).1.getAccount = false
      ∧ ((workerRun hashA "chain" "payer"
          { accountNum := 2, accountSeq := 7, getAccount := false }
          [(queueA, iterEnvOk), (queueA, iterEnvOk)]).2.map
            StepOut.submittedSeq).Nodup) :=
  ⟨by decide,
   worker_monotonic_sequencing hashA "chain" "payer"
     { accountNum := 2, accountSeq := 7, getAccount := false }
     [(queueA, iterEnvOk), (queueA, iterEnvOk)] rfl (by decide)⟩
